import Mathlib

/-!
Verification of the N-Code editor's tab/document registry, storage adapter,
and autosave coordinator (src/public/client-fs.js), via a shallow embedding.

The module-level mutable state of client-fs.js (`tabs`, `activeTabId`,
`tabCounter`, the CodeMirror editing surface, the filename input and the
language select) is modelled as an explicit `EditorState` record, and each
handler becomes a pure state-transforming function.  File handles are
modelled as natural-number identifiers; the directory opened through the
File System Access API is modelled as an association list from entry names
to file contents.
-/

/-- A tab entry, exactly the object literal built in `createTab`
(client-fs.js lines 640-657): `id`, `filename`, `content`, `language`,
`saved` (the negation of the spec's `dirty` flag), `originalContent`,
`fileHandle` (`none` models JavaScript `null`). -/
structure Tab where
  id : Nat
  filename : String
  content : String
  language : String
  saved : Bool
  originalContent : String
  fileHandle : Option Nat
  deriving Repr, DecidableEq

/-- The module-level UI globals of client-fs.js that the registry
operations read and write: the ordered tab sequence, the active tab id
(`none` models `null`), the monotone `tabCounter`, the editing surface's
current text (`editor.getValue()`), and the toolbar's filename input and
language select values. -/
structure EditorState where
  tabs : List Tab
  activeTabId : Option Nat
  tabCounter : Nat
  editorContent : String
  filenameInput : String
  languageSelect : String
  deriving Repr, DecidableEq

/-- The dirty flag of the specification: a Document is dirty when its
in-memory content differs from the last persisted snapshot. -/
def Tab.dirty (t : Tab) : Bool := t.content != t.originalContent

/-- The per-tab update the flush block of `switchToTab` performs on the
tab whose id is the active one (lines 690-694): `content` is overwritten
with the editing surface's text, `language` with the language select's
value, and `saved` is recomputed as `content === originalContent`. -/
def flushTab (editorContent languageSelect : String) (aid : Nat) (t : Tab) : Tab :=
  if t.id = aid then
    { t with content := editorContent
             language := languageSelect
             saved := editorContent == t.originalContent }
  else t

/-- The flush block at the top of `switchToTab` (lines 687-695): if a tab
is active, its live editing-surface state is flushed into it. -/
def flushActiveTab (s : EditorState) : EditorState :=
  match s.activeTabId with
  | none => s
  | some aid =>
    { s with tabs := s.tabs.map (flushTab s.editorContent s.languageSelect aid) }

/-- `switchToTab(tabId)` (lines 686-715): flush the active tab, then look
the target id up; if absent, return (after the flush); if present, make it
active and load its `content`, `filename` and `language` into the editing
surface and toolbar. -/
def switchToTab (s : EditorState) (tabId : Nat) : EditorState :=
  let s1 := flushActiveTab s
  match s1.tabs.find? (fun t => t.id = tabId) with
  | none => s1
  | some tab =>
    { s1 with activeTabId := some tabId
              editorContent := tab.content
              filenameInput := tab.filename
              languageSelect := tab.language }

/-- `createTab(filename, content, language, fileHandle)` (lines 640-657):
increment `tabCounter`, build the tab object (note `saved: !content`,
i.e. `saved` is true exactly when `content` is the empty string, while
`originalContent` is set to `content`), append it to `tabs`, and switch
to it. -/
def createTab (s : EditorState) (filename content language : String)
    (fileHandle : Option Nat) : EditorState :=
  let tabId := s.tabCounter + 1
  let tab : Tab :=
    { id := tabId
      filename := if filename = "" then "untitled-" ++ toString tabId ++ ".js" else filename
      content := content
      language := language
      saved := content = ""
      originalContent := content
      fileHandle := fileHandle }
  switchToTab { s with tabCounter := tabId, tabs := s.tabs ++ [tab] } tabId

/-- `closeTab(tabId, force)` (lines 717-740): if the tab is absent, return;
if it is unsaved and `force` is false, a `confirm` dialog gates the close
(modelled by the `confirmClose` argument) and a refusal returns with no
mutation; otherwise the tab is filtered out and, if it was active, the
last remaining tab (the most recently opened one) is switched to, or the
active pointer becomes `none` when no tab remains. -/
def closeTab (s : EditorState) (tabId : Nat) (force confirmClose : Bool) : EditorState :=
  match s.tabs.find? (fun t => t.id = tabId) with
  | none => s
  | some tab =>
    if !tab.saved && !force && !confirmClose then s
    else
      let remaining := s.tabs.filter (fun t => t.id ≠ tabId)
      let s1 := { s with tabs := remaining }
      if s.activeTabId = some tabId then
        match remaining.getLast? with
        | some last => switchToTab s1 last.id
        | none => { s1 with activeTabId := none }
      else s1

/-- The empty registry: no tabs, no active tab, counter at zero, blank
editing surface. -/
def initialState : EditorState :=
  { tabs := []
    activeTabId := none
    tabCounter := 0
    editorContent := ""
    filenameInput := ""
    languageSelect := "javascript" }

/-- A directory as seen through the File System Access API handle that
`ClientFileSystem` holds: an association list from entry names to file
contents (first match wins on lookup, mirroring name-keyed handle
resolution). -/
abbrev Dir := List (String × String)

/-- Name-keyed lookup, the model of `getFileHandle(name)` followed by
`getFile().text()`. -/
def Dir.lookup (d : Dir) (name : String) : Option String :=
  (List.find? (fun e => e.1 = name) d).map (fun e => e.2)

/-- Overwriting insertion, the model of `getFileHandle(name, {create:true})`
followed by `createWritable().write(content)`/`close()`: an existing entry
of that name is truncated and rewritten, otherwise the entry is created. -/
def Dir.insertEntry (d : Dir) (name content : String) : Dir :=
  (name, content) :: List.filter (fun e => e.1 ≠ name) d

/-- Removal, the model of `removeEntry(name, {recursive:true})`. -/
def Dir.removeEntry (d : Dir) (name : String) : Dir :=
  List.filter (fun e => e.1 ≠ name) d

/-- The state the browser capability reports to the adapter:
whether a `queryPermission` probe answers granted, whether an interactive
`requestPermission` prompt would answer granted, and whether a removal is
currently blocked (the `InvalidModificationError` case surfaced as
"Cannot delete - file may be in use"). -/
structure Capability where
  permGranted : Bool
  requestGrants : Bool
  deleteBlocked : Bool
  deriving Repr, DecidableEq

/-- Outcome of an adapter operation: the (possibly updated) directory, the
success-or-error result, and how many interactive permission re-requests
the operation attempted. -/
structure FsOutcome where
  dir : Dir
  ok : Bool
  errorMsg : String
  requests : Nat
  deriving Repr, DecidableEq

/-- `ClientFileSystem.readFile` (lines 58-66): reads the named file's text,
failing when the name does not resolve. -/
def fsReadFile (d : Dir) (name : String) : Option String :=
  d.lookup name

/-- `ClientFileSystem.writeFile` (lines 68-77): opens a writable stream on
the handle and writes the content.  No permission query or re-request
appears in its body; a denied capability surfaces directly as the stream
creation failing. -/
def fsWriteFile (cap : Capability) (d : Dir) (name content : String) : FsOutcome :=
  if cap.permGranted then
    { dir := d.insertEntry name content, ok := true, errorMsg := "", requests := 0 }
  else
    { dir := d, ok := false, errorMsg := "NotAllowedError", requests := 0 }

/-- `ClientFileSystem.createFile` (lines 79-88): `getFileHandle(name,
{create:true})` then `writeFile`.  Again no permission re-request appears
in its body. -/
def fsCreateFile (cap : Capability) (d : Dir) (name content : String) : FsOutcome :=
  fsWriteFile cap d name content

/-- `ClientFileSystem.createDirectory` (lines 90-97) restricted to what the
claims need: it succeeds or fails on permission with no re-request; the
subdirectory structure itself is not modelled. -/
def fsCreateDirectory (cap : Capability) (d : Dir) (_name : String) : FsOutcome :=
  if cap.permGranted then
    { dir := d, ok := true, errorMsg := "", requests := 0 }
  else
    { dir := d, ok := false, errorMsg := "NotAllowedError", requests := 0 }

/-- `ClientFileSystem.deleteEntry` (lines 99-123): first `queryPermission`;
when not granted, exactly one interactive `requestPermission` is attempted
and a second denial raises "Write permission denied"; with permission, the
entry is removed, failing with not-found when the name does not resolve or
with "Cannot delete - file may be in use" when the capability blocks the
removal. -/
def fsDeleteEntry (cap : Capability) (d : Dir) (name : String) : FsOutcome :=
  let req : Nat := if cap.permGranted then 0 else 1
  if cap.permGranted || cap.requestGrants then
    if (d.lookup name).isNone then
      { dir := d, ok := false, errorMsg := "not found", requests := req }
    else if cap.deleteBlocked then
      { dir := d, ok := false, errorMsg := "Cannot delete - file may be in use", requests := req }
    else
      { dir := d.removeEntry name, ok := true, errorMsg := "", requests := req }
  else
    { dir := d, ok := false, errorMsg := "Write permission denied", requests := 1 }

/-- `ClientFileSystem.renameFile` (lines 125-142): read the old file's
content, create the new file holding that content, then delete the old
entry — copy-then-delete, with no rollback when the delete step fails. -/
def fsRenameFile (cap : Capability) (d : Dir) (oldName newName : String) : FsOutcome :=
  match fsReadFile d oldName with
  | none => { dir := d, ok := false, errorMsg := "not found", requests := 0 }
  | some content =>
    let created := fsCreateFile cap d newName content
    if created.ok then
      let deleted := fsDeleteEntry cap created.dir oldName
      { deleted with requests := created.requests + deleted.requests }
    else created

/-- The intermediate registry-visible state of `renameFile` after the
create-new step has completed and before the delete-old step runs
(line 132 has returned, line 135 has not): the directory as mutated so
far. -/
def fsRenameFileAfterCreate (cap : Capability) (d : Dir) (oldName newName : String) :
    Option Dir :=
  match fsReadFile d oldName with
  | none => none
  | some content =>
    let created := fsCreateFile cap d newName content
    if created.ok then some created.dir else none

/-- JavaScript's `String.prototype.trim`: strip leading and trailing
whitespace. -/
def jsTrim (s : String) : String :=
  ⟨((s.data.dropWhile Char.isWhitespace).reverse.dropWhile Char.isWhitespace).reverse⟩

/-- Resolution of the filename used by `autoSaveToFileSystem` (line 1241):
the trimmed filename-input value, falling back to the tab's current
filename when the input is blank. -/
def resolveFilename (input : String) (t : Tab) : String :=
  if jsTrim input ≠ "" then jsTrim input else t.filename

/-- The rename-invalidate rule applied to the current tab both by
`autoSaveToFileSystem` (lines 1244-1251) and by the pre-save sync in
`saveAllFiles` (lines 459-466): when the resolved filename differs from
the tab's current filename, the filename is updated and the file handle
is cleared to force the next save to create a file by name; when it is
equal, nothing is touched. -/
def renameStep (t : Tab) (filename : String) : Tab :=
  if filename ≠ t.filename then { t with filename := filename, fileHandle := none }
  else t

/-- Guard at the top of `renameItem` (line 1072): the context-menu rename
proceeds only when the prompted name is non-empty, differs from the item's
current name, and is not all whitespace; otherwise the handler returns
with no effect at all. -/
def renameItemProceeds (itemName newName : String) : Bool :=
  decide (newName ≠ "" ∧ newName ≠ itemName ∧ jsTrim newName ≠ "")

/-- Result of one debounced disk-sync cycle: the updated UI state and the
writes performed through storage handles (handle, content). -/
structure AutoSaveResult where
  state : EditorState
  writes : List (Nat × String)
  deriving Repr, DecidableEq

/-- `autoSaveToFileSystem` (lines 1234-1282), the disk-sync step the
debounced autosave timer fires: no-op without an active tab; otherwise the
active tab's content is updated from the editing surface and the
rename-invalidate rule is applied; then, when the capability is supported
and the tab (still) holds a handle, the content is written through that
handle and the tab marked saved; when the capability is unsupported, only
the local snapshot path runs and `saved` is recomputed.  The
`dirOpen` argument records whether a directory is open: the function's
body never consults it — there is no create-under-directory branch. -/
def autoSaveToFileSystem (s : EditorState) (supported _dirOpen : Bool) : AutoSaveResult :=
  match s.activeTabId with
  | none => { state := s, writes := [] }
  | some aid =>
    match s.tabs.find? (fun t => t.id = aid) with
    | none => { state := s, writes := [] }
    | some t =>
      let content := s.editorContent
      let t2 := renameStep { t with content := content } (resolveFilename s.filenameInput t)
      match supported, t2.fileHandle with
      | true, some h =>
        let t3 := { t2 with originalContent := content, saved := true }
        { state := { s with tabs := s.tabs.map fun u => if u.id = aid then t3 else u }
          writes := [(h, content)] }
      | true, none =>
        { state := { s with tabs := s.tabs.map fun u => if u.id = aid then t2 else u }
          writes := [] }
      | false, _ =>
        let t3 := { t2 with saved := content == t2.originalContent }
        { state := { s with tabs := s.tabs.map fun u => if u.id = aid then t3 else u }
          writes := [] }

/-- The pre-loop block of `saveAllFiles` (lines 455-468): the active tab's
content is refreshed from the editing surface and the rename-invalidate
rule is applied with the trimmed filename-input value. -/
def syncActiveTab (s : EditorState) : EditorState :=
  match s.activeTabId with
  | none => s
  | some aid =>
    { s with tabs := s.tabs.map fun t =>
        if t.id = aid then
          renameStep { t with content := s.editorContent } (resolveFilename s.filenameInput t)
        else t }

/-- Result of the bulk save loop: the rewritten tab sequence, the next
fresh handle identifier, the writes performed through existing handles,
and the files created under the open directory (name, content). -/
structure SaveResult where
  tabs : List Tab
  nextHandle : Nat
  writes : List (Nat × String)
  created : List (String × String)
  deriving Repr, DecidableEq

/-- The per-tab loop of `saveAllFiles` (lines 471-492), on the supported
path with every adapter call succeeding: a tab with a handle is written
through it and marked saved; a handle-less tab whose content is non-blank
is created under the open directory (when one is open), binding a fresh
handle, and marked saved; any other tab is left untouched. -/
def saveTabs (dirOpen : Bool) (nh : Nat) : List Tab → SaveResult
  | [] => { tabs := [], nextHandle := nh, writes := [], created := [] }
  | t :: ts =>
    match t.fileHandle with
    | some h =>
      let r := saveTabs dirOpen nh ts
      { r with
          tabs := { t with originalContent := t.content, saved := true } :: r.tabs
          writes := (h, t.content) :: r.writes }
    | none =>
      if jsTrim t.content ≠ "" ∧ dirOpen = true then
        let r := saveTabs dirOpen (nh + 1) ts
        { r with
            tabs := { t with fileHandle := some nh
                             originalContent := t.content
                             saved := true } :: r.tabs
            created := (t.filename, t.content) :: r.created }
      else
        let r := saveTabs dirOpen nh ts
        { r with tabs := t :: r.tabs }

/-- Result of the explicit Save action. -/
structure SaveAllResult where
  state : EditorState
  nextHandle : Nat
  writes : List (Nat × String)
  created : List (String × String)
  deriving Repr, DecidableEq

/-- `saveAllFiles` (lines 444-505) on the supported path: sync the active
tab, then run the bulk save loop over the whole tab sequence. -/
def saveAllFiles (s : EditorState) (dirOpen : Bool) (nh : Nat) : SaveAllResult :=
  let s1 := syncActiveTab s
  let r := saveTabs dirOpen nh s1.tabs
  { state := { s1 with tabs := r.tabs }
    nextHandle := r.nextHandle
    writes := r.writes
    created := r.created }

/-- Observable registry/storage events emitted by `deleteItem`, in
program order. -/
inductive UiEvent where
  | tabClosed (id : Nat)
  | entryDeleted (name : String)
  deriving Repr, DecidableEq

/-- Result of the context-menu Delete action. -/
structure DeleteItemResult where
  state : EditorState
  dir : Dir
  events : List UiEvent
  ok : Bool
  deriving Repr, DecidableEq

/-- `deleteItem(item)` (lines 1116-1167): a `confirm` dialog gates the
whole action (modelled by `confirmDelete`); with no open directory the
action aborts; otherwise the first tab whose handle is the item's handle
is force-closed (no unsaved-changes confirmation) before the storage
delete runs; the entry is then deleted through the adapter.  The events
list records the order: the tab close always precedes the entry
deletion. -/
def deleteItem (s : EditorState) (d : Dir) (cap : Capability)
    (confirmDelete dirOpen : Bool) (itemName : String) (itemHandle : Nat) :
    DeleteItemResult :=
  if confirmDelete = false then { state := s, dir := d, events := [], ok := false }
  else if dirOpen = false then { state := s, dir := d, events := [], ok := false }
  else
    let closed :=
      match s.tabs.find? (fun t => t.fileHandle = some itemHandle) with
      | some openTab => (closeTab s openTab.id true false, [UiEvent.tabClosed openTab.id])
      | none => (s, [])
    let del := fsDeleteEntry cap d itemName
    if del.ok then
      { state := closed.1, dir := del.dir
        events := closed.2 ++ [UiEvent.entryDeleted itemName], ok := true }
    else
      { state := closed.1, dir := del.dir, events := closed.2, ok := false }

/-- Concrete one-tab registry used to refute C2: the single tab is active
and clean (content "a" equals its snapshot), while the editing surface
holds the newer text "b" that has not been flushed yet. -/
def c2State : EditorState :=
  { tabs := [⟨1, "a.js", "a", "javascript", true, "a", none⟩]
    activeTabId := some 1
    tabCounter := 1
    editorContent := "b"
    filenameInput := "a.js"
    languageSelect := "javascript" }

/-- Concrete two-tab registry for the C3 witness: tab 2 is active and
dirty. -/
def c3State : EditorState :=
  { tabs := [⟨1, "a.js", "a", "javascript", true, "a", none⟩,
             ⟨2, "b.js", "b", "javascript", false, "", none⟩]
    activeTabId := some 2
    tabCounter := 2
    editorContent := "b"
    filenameInput := "b.js"
    languageSelect := "javascript" }

/-- Concrete two-tab registry for the C4 witness: tab 1 is active, the
editing surface holds unflushed text "a2", and tab 2 stores "b". -/
def c4State : EditorState :=
  { tabs := [⟨1, "a.js", "a", "javascript", true, "a", none⟩,
             ⟨2, "b.js", "b", "javascript", true, "b", none⟩]
    activeTabId := some 1
    tabCounter := 2
    editorContent := "a2"
    filenameInput := "a.js"
    languageSelect := "javascript" }

/-- Concrete state used for C7: a directory is open (the `dirOpen`
argument is `true`), the capability is supported, and the sole, active
tab has no bound file handle. -/
def c7State : EditorState :=
  { tabs := [⟨1, "a.js", "x", "javascript", false, "", none⟩]
    activeTabId := some 1
    tabCounter := 1
    editorContent := "x"
    filenameInput := "a.js"
    languageSelect := "javascript" }

/-- Concrete state used to refute C8: a directory is open and the sole,
active, handle-less tab holds whitespace-only content. -/
def c8State : EditorState :=
  { tabs := [⟨1, "a.js", " ", "javascript", false, "", none⟩]
    activeTabId := some 1
    tabCounter := 1
    editorContent := " "
    filenameInput := "a.js"
    languageSelect := "javascript" }

/-- Concrete two-tab registry for the C8 witness: tab 1 is bound to
handle 7, tab 2 is handle-less with non-blank content, no tab is active. -/
def c8wState : EditorState :=
  { tabs := [⟨1, "a.js", "x", "javascript", false, "", some 7⟩,
             ⟨2, "b.js", "y", "javascript", false, "", none⟩]
    activeTabId := none
    tabCounter := 2
    editorContent := ""
    filenameInput := ""
    languageSelect := "javascript" }

/-- Concrete registry used to refute C10: two tabs are bound to the SAME
handle 5 (obtained by clicking the same file in the explorer twice, which
calls `createTab` with the same `item.handle` each time).  Tab 2 is
active and dirty, with unflushed surface text "edit2". -/
def c10State : EditorState :=
  { tabs := [⟨1, "a.txt", "old", "javascript", true, "old", some 5⟩,
             ⟨2, "a.txt", "edit", "javascript", false, "old", some 5⟩]
    activeTabId := some 2
    tabCounter := 2
    editorContent := "edit2"
    filenameInput := "a.txt"
    languageSelect := "javascript" }

/-- Concrete registry for the C10 witness: a single tab bound to
handle 5. -/
def c10wState : EditorState :=
  { tabs := [⟨1, "a.txt", "x", "javascript", true, "x", some 5⟩]
    activeTabId := some 1
    tabCounter := 1
    editorContent := "x"
    filenameInput := "a.txt"
    languageSelect := "javascript" }

-- ## Helper lemmas

theorem flushTab_id (ec ls : String) (aid : Nat) (t : Tab) :
    (flushTab ec ls aid t).id = t.id := by
  unfold flushTab; split <;> rfl

theorem flushTab_fileHandle (ec ls : String) (aid : Nat) (t : Tab) :
    (flushTab ec ls aid t).fileHandle = t.fileHandle := by
  unfold flushTab; split <;> rfl

theorem flushTab_of_ne {aid : Nat} {t : Tab} (ec ls : String) (h : t.id ≠ aid) :
    flushTab ec ls aid t = t := by
  unfold flushTab; simp [h]

theorem map_flushTab_of_absent {aid : Nat} {l : List Tab} (ec ls : String)
    (h : ∀ t ∈ l, t.id ≠ aid) : l.map (flushTab ec ls aid) = l := by
  have h2 : l.map (flushTab ec ls aid) = l.map id :=
    List.map_congr_left (fun t ht => by rw [flushTab_of_ne ec ls (h t ht)]; rfl)
  simpa using h2

theorem flushActiveTab_activeTabId (s : EditorState) :
    (flushActiveTab s).activeTabId = s.activeTabId := by
  unfold flushActiveTab; cases h : s.activeTabId <;> simp [h]

theorem flushActiveTab_editorContent (s : EditorState) :
    (flushActiveTab s).editorContent = s.editorContent := by
  unfold flushActiveTab; cases h : s.activeTabId <;> simp [h]

theorem flushActiveTab_tabs_map_id (s : EditorState) :
    (flushActiveTab s).tabs.map Tab.id = s.tabs.map Tab.id := by
  unfold flushActiveTab
  cases h : s.activeTabId with
  | none => simp [h]
  | some aid =>
    simp only [h, List.map_map]
    exact List.map_congr_left (fun t _ => flushTab_id _ _ _ t)

theorem find?_filter_ne (d : Dir) (n m : String) (h : m ≠ n) :
    (List.filter (fun e => e.1 ≠ n) d).find? (fun e => e.1 = m)
      = d.find? (fun e => e.1 = m) := by
  rw [List.find?_filter]
  congr 1
  funext a
  by_cases ham : a.1 = m
  · have han : a.1 ≠ n := fun e => h (ham ▸ e)
    simp [ham, han, h]
  · simp [ham]

theorem Dir.lookup_insert_self (d : Dir) (n c : String) :
    (d.insertEntry n c).lookup n = some c := by
  simp [Dir.lookup, Dir.insertEntry, List.find?_cons]

theorem Dir.lookup_insert_ne (d : Dir) {n m : String} (c : String) (h : m ≠ n) :
    (d.insertEntry n c).lookup m = d.lookup m := by
  have hnm : ¬ (n = m) := fun e => h e.symm
  unfold Dir.insertEntry Dir.lookup
  rw [List.find?_cons]
  have h1 : (decide ((n, c).1 = m)) = false := by simp [hnm]
  rw [h1, find?_filter_ne d n m h]

theorem Dir.lookup_remove_self (d : Dir) (n : String) :
    (d.removeEntry n).lookup n = none := by
  unfold Dir.removeEntry Dir.lookup
  rw [List.find?_filter]
  have h1 : List.find? (fun a => decide ((fun e => decide ¬(e.1 = n)) a = true ∧ (fun e => decide (e.1 = n)) a = true)) d = none := by
    rw [List.find?_eq_none]
    intro a _
    simp
  rw [h1]
  rfl

theorem Dir.lookup_remove_ne (d : Dir) {n m : String} (h : m ≠ n) :
    (d.removeEntry n).lookup m = d.lookup m := by
  unfold Dir.removeEntry Dir.lookup
  rw [find?_filter_ne d n m h]

-- ## Claim C1

/-- C1: the claimed invariant "dirty == (content != originalContent) after
every registry operation" is violated by the open operation itself, at the
spec's own scenario input: opening the empty registry with filename
"a.py" and non-empty content "print(1)" produces a Document whose
`originalContent` equals its `content`, yet whose `saved` flag is `false`
(so the UI dirty flag `!saved` is `true`), because `createTab` initialises
`saved` as `!content`.  This theorem evaluates the code at that failing
input: the sole tab is active, its content and snapshot agree, and it is
nonetheless marked unsaved — contradicting the code's own comment "New
tabs are considered saved until modified". -/
theorem c1_open_nonempty_marked_unsaved :
    (createTab initialState "a.py" "print(1)" "python" none).tabs.map
        (fun t => (t.saved, t.dirty, t.content == t.originalContent))
      = [(false, false, true)]
    ∧ (createTab initialState "a.py" "print(1)" "python" none).activeTabId = some 1 := by
  constructor
  · decide
  · decide

-- ## Claim C2

/-- C2 counterexample: activating an id that is not in the registry is not
a no-op.  `switchToTab` flushes the editing surface into the active
Document before it discovers the id is absent: at `c2State`, switching to
the absent id 99 rewrites the active Document's `content` from "a" to "b"
and flips its `saved` flag to `false`, so the state changes even though
the active pointer stays put. -/
theorem c2_counterexample :
    switchToTab c2State 99 ≠ c2State
    ∧ (switchToTab c2State 99).tabs.map Tab.content = ["b"]
    ∧ c2State.tabs.map Tab.content = ["a"]
    ∧ (switchToTab c2State 99).tabs.map Tab.saved = [false]
    ∧ (switchToTab c2State 99).activeTabId = c2State.activeTabId := by
  refine ⟨by decide, by decide, by decide, by decide, by decide⟩

/-- C2 amended: activating an absent id performs exactly the flush of the
currently-active Document and nothing else — the active pointer, the set
of tab ids and the editing surface are unchanged, but the active
Document's `content`, `language` and recomputed `saved` flag may change
through the flush. -/
theorem c2_activate_missing_flushes_only (s : EditorState) (tid : Nat)
    (habsent : ∀ t ∈ s.tabs, t.id ≠ tid) :
    switchToTab s tid = flushActiveTab s
    ∧ (switchToTab s tid).activeTabId = s.activeTabId
    ∧ (switchToTab s tid).tabs.map Tab.id = s.tabs.map Tab.id
    ∧ (switchToTab s tid).editorContent = s.editorContent := by
  have hfind : (flushActiveTab s).tabs.find? (fun t => t.id = tid) = none := by
    rw [List.find?_eq_none]
    intro t ht
    have : t.id ∈ (flushActiveTab s).tabs.map Tab.id := List.mem_map_of_mem Tab.id ht
    rw [flushActiveTab_tabs_map_id] at this
    obtain ⟨u, hu, huid⟩ := List.mem_map.mp this
    simpa [← huid] using habsent u hu
  have heq : switchToTab s tid = flushActiveTab s := by
    simp only [switchToTab, hfind]
  refine ⟨heq, ?_, ?_, ?_⟩
  · rw [heq, flushActiveTab_activeTabId]
  · rw [heq, flushActiveTab_tabs_map_id]
  · rw [heq, flushActiveTab_editorContent]

/-- C2 amended witness: the amended theorem applied at `c2State` and the
absent id 99. -/
theorem c2_amended_witness :
    switchToTab c2State 99 = flushActiveTab c2State
    ∧ (switchToTab c2State 99).activeTabId = c2State.activeTabId
    ∧ (switchToTab c2State 99).tabs.map Tab.id = c2State.tabs.map Tab.id
    ∧ (switchToTab c2State 99).editorContent = c2State.editorContent :=
  c2_activate_missing_flushes_only c2State 99 (by decide)

-- ## Claim C9

/-- C9: renaming a Document to a name equal to its current filename is a
no-op — the tab object is returned unchanged, so the file handle is not
invalidated and the saved/dirty flag does not change — while a differing
name updates `filename` and clears `fileHandle`; when a handle is bound,
the handle is invalidated exactly when the new name differs.  The rename
step never touches `content`, `originalContent` or `saved`, and the
context-menu rename (`renameItem`) refuses outright a new name equal to
the item's current name. -/
theorem c9_rename_same_name_noop (t : Tab) (nf : String) :
    (nf = t.filename → renameStep t nf = t)
    ∧ (nf ≠ t.filename → (renameStep t nf).filename = nf ∧ (renameStep t nf).fileHandle = none)
    ∧ (t.fileHandle ≠ none → ((renameStep t nf).fileHandle = none ↔ nf ≠ t.filename))
    ∧ (renameStep t nf).saved = t.saved
    ∧ (renameStep t nf).content = t.content
    ∧ (renameStep t nf).originalContent = t.originalContent
    ∧ renameItemProceeds t.filename t.filename = false := by
  by_cases h : nf = t.filename
  · refine ⟨fun _ => ?_, fun hne => absurd h hne, fun hh => ?_, ?_, ?_, ?_, ?_⟩
    · simp [renameStep, h]
    · simp [renameStep, h, hh]
    · simp [renameStep, h]
    · simp [renameStep, h]
    · simp [renameStep, h]
    · simp [renameItemProceeds]
  · refine ⟨fun he => absurd he h, fun _ => ?_, fun _ => ?_, ?_, ?_, ?_, ?_⟩
    · simp [renameStep, h]
    · simp [renameStep, h]
    · simp [renameStep, h]
    · simp [renameStep, h]
    · simp [renameStep, h]
    · simp [renameItemProceeds]

/-- C9 witness: the theorem applied to a concrete bound, dirty tab and its
own filename: the rename step leaves it untouched. -/
theorem c9_witness :
    renameStep ⟨1, "a.js", "x", "javascript", false, "", some 4⟩ "a.js"
        = ⟨1, "a.js", "x", "javascript", false, "", some 4⟩
    ∧ renameItemProceeds "a.js" "a.js" = false :=
  ⟨(c9_rename_same_name_noop ⟨1, "a.js", "x", "javascript", false, "", some 4⟩ "a.js").1 rfl,
   (c9_rename_same_name_noop ⟨1, "a.js", "x", "javascript", false, "", some 4⟩ "a.js").2.2.2.2.2.2⟩

-- ## Claim C6

/-- C6 counterexample: `writeFile` is a mutating Storage Adapter operation,
yet on a permission-denied capability it surfaces the failure with zero
interactive permission re-requests — even on a capability whose
re-request would have been granted (`requestGrants = true`), the write
fails immediately.  This refutes the claim that every mutating operation
attempts exactly one re-request before surfacing failure. -/
theorem c6_counterexample :
    fsWriteFile ⟨false, true, false⟩ [("a.txt", "x")] "a.txt" "y"
      = { dir := [("a.txt", "x")], ok := false, errorMsg := "NotAllowedError", requests := 0 }
    ∧ (fsWriteFile ⟨false, true, false⟩ [("a.txt", "x")] "a.txt" "y").requests ≠ 1 := by
  exact ⟨by decide, by decide⟩

/-- C6 amended: only `deleteEntry` implements the one-shot interactive
permission re-request.  On a permission-denied capability, `writeFile`,
`createFile` and `createDirectory` fail with zero re-requests, while
`deleteEntry` attempts exactly one re-request, surfacing failure only when
that re-request is also denied (`renameFile` inherits the re-request
solely through its delete-old step). -/
theorem c6_only_deleteEntry_rerequests (cap : Capability) (d : Dir) (name content : String)
    (hdenied : cap.permGranted = false) :
    (fsWriteFile cap d name content).requests = 0
    ∧ (fsWriteFile cap d name content).ok = false
    ∧ (fsCreateFile cap d name content).requests = 0
    ∧ (fsCreateFile cap d name content).ok = false
    ∧ (fsCreateDirectory cap d name).requests = 0
    ∧ (fsCreateDirectory cap d name).ok = false
    ∧ (fsDeleteEntry cap d name).requests = 1
    ∧ (cap.requestGrants = false → (fsDeleteEntry cap d name).ok = false) := by
  refine ⟨?_, ?_, ?_, ?_, ?_, ?_, ?_, ?_⟩
  · simp [fsWriteFile, hdenied]
  · simp [fsWriteFile, hdenied]
  · simp [fsCreateFile, fsWriteFile, hdenied]
  · simp [fsCreateFile, fsWriteFile, hdenied]
  · simp [fsCreateDirectory, hdenied]
  · simp [fsCreateDirectory, hdenied]
  · simp only [fsDeleteEntry, hdenied, Bool.false_or, if_false, Bool.false_eq_true]
    split <;> first | rfl | (split <;> first | rfl | (split <;> rfl))
  · intro hreq
    simp [fsDeleteEntry, hdenied, hreq]

/-- C6 amended witness: the amended theorem at a concrete denied
capability. -/
theorem c6_amended_witness :
    (fsWriteFile ⟨false, false, false⟩ [] "a.txt" "y").requests = 0
    ∧ (fsWriteFile ⟨false, false, false⟩ [] "a.txt" "y").ok = false
    ∧ (fsCreateFile ⟨false, false, false⟩ [] "a.txt" "y").requests = 0
    ∧ (fsCreateFile ⟨false, false, false⟩ [] "a.txt" "y").ok = false
    ∧ (fsCreateDirectory ⟨false, false, false⟩ [] "sub").requests = 0
    ∧ (fsCreateDirectory ⟨false, false, false⟩ [] "sub").ok = false
    ∧ (fsDeleteEntry ⟨false, false, false⟩ [] "a.txt").requests = 1
    ∧ ((false : Bool) = false → (fsDeleteEntry ⟨false, false, false⟩ [] "a.txt").ok = false) :=
  c6_only_deleteEntry_rerequests ⟨false, false, false⟩ [] "a.txt" "y" rfl

-- ## Claim C5

/-- C5: `renameFile` is copy-then-delete and not atomic.  For an existing
old entry and a distinct new name, with write permission granted: the
intermediate state reached after the create-new step and before the
delete-old step holds BOTH names, the new one already carrying the old
file's content; when the delete-old step fails (capability blocks the
removal), the operation surfaces failure while the directory keeps both
names; when the delete-old step succeeds, the new name carries the old
content and the old name is gone. -/
theorem c5_renameFile_copy_then_delete (cap : Capability) (d : Dir)
    (oldName newName c : String)
    (hperm : cap.permGranted = true) (hold : d.lookup oldName = some c)
    (hne : oldName ≠ newName) :
    (fsRenameFileAfterCreate cap d oldName newName = some (d.insertEntry newName c)
      ∧ (d.insertEntry newName c).lookup oldName = some c
      ∧ (d.insertEntry newName c).lookup newName = some c)
    ∧ (cap.deleteBlocked = true →
        (fsRenameFile cap d oldName newName).ok = false
        ∧ (fsRenameFile cap d oldName newName).dir.lookup oldName = some c
        ∧ (fsRenameFile cap d oldName newName).dir.lookup newName = some c)
    ∧ (cap.deleteBlocked = false →
        (fsRenameFile cap d oldName newName).ok = true
        ∧ (fsRenameFile cap d oldName newName).dir.lookup newName = some c
        ∧ (fsRenameFile cap d oldName newName).dir.lookup oldName = none) := by
  have hlook_ins_old : (d.insertEntry newName c).lookup oldName = some c := by
    rw [Dir.lookup_insert_ne d c hne]; exact hold
  have hins_new : (d.insertEntry newName c).lookup newName = some c :=
    Dir.lookup_insert_self d newName c
  have hcre : fsCreateFile cap d newName c
      = { dir := d.insertEntry newName c, ok := true, errorMsg := "", requests := 0 } := by
    simp [fsCreateFile, fsWriteFile, hperm]
  refine ⟨⟨?_, hlook_ins_old, hins_new⟩, fun hb => ?_, fun hb => ?_⟩
  · simp only [fsRenameFileAfterCreate, fsReadFile, hold, hcre]
    simp
  · have hrun : fsRenameFile cap d oldName newName
        = { dir := d.insertEntry newName c, ok := false
            errorMsg := "Cannot delete - file may be in use", requests := 0 } := by
      simp only [fsRenameFile, fsReadFile, hold, hcre]
      simp [fsDeleteEntry, hperm, hlook_ins_old, hb]
    rw [hrun]
    exact ⟨rfl, hlook_ins_old, hins_new⟩
  · have hrun : fsRenameFile cap d oldName newName
        = { dir := (d.insertEntry newName c).removeEntry oldName, ok := true
            errorMsg := "", requests := 0 } := by
      simp only [fsRenameFile, fsReadFile, hold, hcre]
      simp [fsDeleteEntry, hperm, hlook_ins_old, hb]
    rw [hrun]
    refine ⟨rfl, ?_, ?_⟩
    · rw [Dir.lookup_remove_ne _ (Ne.symm hne)]
      exact hins_new
    · exact Dir.lookup_remove_self _ oldName

/-- C5 witness: the theorem at a concrete directory holding "old.txt":
the intermediate state holds both names and the completed rename succeeds
with the old name gone. -/
theorem c5_witness :
    (Dir.lookup (Dir.insertEntry [("old.txt", "hi")] "new.txt" "hi") "old.txt" = some "hi")
    ∧ (fsRenameFile ⟨true, true, false⟩ [("old.txt", "hi")] "old.txt" "new.txt").ok = true
    ∧ (fsRenameFile ⟨true, true, false⟩ [("old.txt", "hi")] "old.txt" "new.txt").dir.lookup
        "old.txt" = none :=
  ⟨(c5_renameFile_copy_then_delete ⟨true, true, false⟩ [("old.txt", "hi")]
      "old.txt" "new.txt" "hi" rfl (by decide) (by decide)).1.2.1,
   ((c5_renameFile_copy_then_delete ⟨true, true, false⟩ [("old.txt", "hi")]
      "old.txt" "new.txt" "hi" rfl (by decide) (by decide)).2.2 rfl).1,
   ((c5_renameFile_copy_then_delete ⟨true, true, false⟩ [("old.txt", "hi")]
      "old.txt" "new.txt" "hi" rfl (by decide) (by decide)).2.2 rfl).2.2⟩

-- ## Claim C7

/-- C7 counterexample: the debounced disk-sync cycle does NOT create a
file under the open directory for a handle-less active Document.  At
`c7State` with a directory open, `autoSaveToFileSystem` performs no
storage write, binds no handle (the tab's `fileHandle` stays `none`), and
leaves the tab unsaved — the create-under-directory branch claimed by the
spec does not exist in this function (it exists only in `saveAllFiles`). -/
theorem c7_counterexample :
    (autoSaveToFileSystem c7State true true).writes = []
    ∧ (autoSaveToFileSystem c7State true true).state.tabs.map Tab.fileHandle = [none]
    ∧ (autoSaveToFileSystem c7State true true).state.tabs.map Tab.saved = [false]
    ∧ c7State.activeTabId = some 1
    ∧ c7State.tabs.map Tab.fileHandle = [none] := by
  refine ⟨by decide, by decide, by decide, by decide, by decide⟩

/-- C7 amended: on the supported path, the debounced disk-sync cycle
writes only through an already-bound handle.  Whenever the active
Document is handle-less, the cycle performs no storage write and binds no
new handle — every tab in the resulting state carries a handle that some
tab already carried — regardless of whether a directory is open; file
creation under the open directory happens only in the explicit save-all
action. -/
theorem c7_autosave_handleless_no_creation (s : EditorState) (dirOpen : Bool)
    (aid : Nat) (t : Tab)
    (ha : s.activeTabId = some aid)
    (hf : s.tabs.find? (fun u => u.id = aid) = some t)
    (hh : t.fileHandle = none) :
    (autoSaveToFileSystem s true dirOpen).writes = []
    ∧ ∀ u ∈ (autoSaveToFileSystem s true dirOpen).state.tabs,
        u.fileHandle ∈ s.tabs.map Tab.fileHandle := by
  have ht2 : (renameStep { t with content := s.editorContent }
      (resolveFilename s.filenameInput t)).fileHandle = none := by
    unfold renameStep; split <;> simp [hh]
  have hrun : autoSaveToFileSystem s true dirOpen =
      { state := { s with tabs := s.tabs.map fun u =>
          if u.id = aid then
            (renameStep { t with content := s.editorContent }
              (resolveFilename s.filenameInput t))
          else u }
        writes := [] } := by
    simp only [autoSaveToFileSystem, ha, hf, ht2]
  rw [hrun]
  refine ⟨rfl, ?_⟩
  intro u hu
  obtain ⟨v, hv, hvu⟩ := List.mem_map.mp hu
  by_cases hvid : v.id = aid
  · have : u.fileHandle = none := by
      rw [← hvu]; simp [hvid, ht2]
    rw [this, ← hh]
    exact List.mem_map_of_mem Tab.fileHandle (List.mem_of_find?_eq_some hf)
  · have : u = v := by rw [← hvu]; simp [hvid]
    rw [this]
    exact List.mem_map_of_mem Tab.fileHandle hv

/-- C7 amended witness: the amended theorem at `c7State` with a directory
open. -/
theorem c7_amended_witness :
    (autoSaveToFileSystem c7State true true).writes = []
    ∧ ∀ u ∈ (autoSaveToFileSystem c7State true true).state.tabs,
        u.fileHandle ∈ c7State.tabs.map Tab.fileHandle :=
  c7_autosave_handleless_no_creation c7State true 1
    ⟨1, "a.js", "x", "javascript", false, "", none⟩ rfl (by decide) rfl

-- ## Claim C3

theorem mem_of_getLast?_eq {α : Type} (l : List α) (a : α) (h : l.getLast? = some a) :
    a ∈ l := by
  obtain ⟨hne, heq⟩ := List.mem_getLast?_eq_getLast (show a ∈ l.getLast? by simp [h])
  rw [heq]
  exact List.getLast_mem hne

theorem filter_ne_id_absent (l : List Tab) (tid : Nat) :
    ∀ u ∈ l.filter (fun v => v.id ≠ tid), u.id ≠ tid := by
  intro u hu
  simpa using (List.mem_filter.mp hu).2

/-- C3: forced close always removes the Document regardless of dirtiness
(the remaining tab sequence is exactly the original with the id filtered
out); when the closed Document was active, the last remaining tab — the
most recently opened one, since `createTab` appends — becomes active, or
the active pointer becomes `none` when no tab remains; when it was not
active, the active pointer is untouched; and a dirty close with
`force=false` and the confirmation refused mutates nothing. -/
theorem c3_closeTab_spec (s : EditorState) (tid : Nat) (cfm : Bool) (t : Tab)
    (hfind : s.tabs.find? (fun u => u.id = tid) = some t) :
    (closeTab s tid true cfm).tabs = s.tabs.filter (fun u => u.id ≠ tid)
    ∧ (s.activeTabId = some tid → s.tabs.filter (fun u => u.id ≠ tid) = [] →
        (closeTab s tid true cfm).activeTabId = none)
    ∧ (s.activeTabId = some tid → s.tabs.filter (fun u => u.id ≠ tid) ≠ [] →
        (closeTab s tid true cfm).activeTabId
          = ((s.tabs.filter (fun u => u.id ≠ tid)).getLast?).map Tab.id)
    ∧ (s.activeTabId ≠ some tid →
        (closeTab s tid true cfm).activeTabId = s.activeTabId)
    ∧ (t.saved = false → closeTab s tid false false = s) := by
  have hbody : closeTab s tid true cfm =
      (let remaining := s.tabs.filter (fun v => v.id ≠ tid)
       let s1 := { s with tabs := remaining }
       if s.activeTabId = some tid then
         match remaining.getLast? with
         | some last => switchToTab s1 last.id
         | none => { s1 with activeTabId := none }
       else s1) := by
    simp only [closeTab, hfind, Bool.not_true, Bool.and_false, Bool.false_and,
      Bool.false_eq_true, if_false]
  by_cases ha : s.activeTabId = some tid
  · rcases hrem : s.tabs.filter (fun v => v.id ≠ tid) with _ | ⟨r, rs⟩
    · -- no tab remains
      have hclose : closeTab s tid true cfm =
          { s with tabs := [], activeTabId := none } := by
        rw [hbody]
        simp only [hrem, ha, if_pos, List.getLast?_nil]
      refine ⟨?_, fun _ _ => ?_, fun _ hne => absurd hrem hne, fun hne => absurd ha hne, ?_⟩
      · rw [hclose, hrem]
      · rw [hclose]
      · intro hsaved
        simp only [closeTab, hfind, hsaved, Bool.not_false, Bool.true_and, Bool.and_self,
          if_pos]
    · -- some tabs remain
      set rem := s.tabs.filter (fun v => v.id ≠ tid) with hremdef
      have hremne : rem ≠ [] := by rw [hrem]; exact List.cons_ne_nil r rs
      obtain ⟨last, hlast⟩ : ∃ last, rem.getLast? = some last :=
        ⟨rem.getLast hremne, List.getLast?_eq_getLast_of_ne_nil hremne⟩
      have habsent : ∀ u ∈ rem, u.id ≠ tid := filter_ne_id_absent s.tabs tid
      have hflush : flushActiveTab { s with tabs := rem } = { s with tabs := rem } := by
        unfold flushActiveTab
        simp only [ha]
        rw [map_flushTab_of_absent _ _ habsent]
      have hfind2 : rem.find? (fun v => v.id = last.id) ≠ none := by
        intro hnone
        rw [List.find?_eq_none] at hnone
        exact (hnone last (mem_of_getLast?_eq rem last hlast)) (by simp)
      obtain ⟨tab2, htab2⟩ : ∃ tab2, rem.find? (fun v => v.id = last.id) = some tab2 := by
        cases h2 : rem.find? (fun v => v.id = last.id) with
        | none => exact absurd h2 hfind2
        | some tab2 => exact ⟨tab2, rfl⟩
      have hswitch : switchToTab { s with tabs := rem } last.id =
          { tabs := rem, activeTabId := some last.id, tabCounter := s.tabCounter
            editorContent := tab2.content, filenameInput := tab2.filename
            languageSelect := tab2.language } := by
        unfold switchToTab
        simp only [hflush, htab2]
      have hclose : closeTab s tid true cfm = switchToTab { s with tabs := rem } last.id := by
        rw [hbody]
        simp only [← hremdef, ha, if_pos, hlast]
      refine ⟨?_, fun _ hnil => absurd hnil hremne, fun _ _ => ?_, fun hne => absurd ha hne, ?_⟩
      · rw [hclose, hswitch]
      · rw [hclose, hswitch, hlast]
        rfl
      · intro hsaved
        simp only [closeTab, hfind, hsaved, Bool.not_false, Bool.true_and, Bool.and_self,
          if_pos]
  · -- closed tab was not active
    have hclose : closeTab s tid true cfm =
        { s with tabs := s.tabs.filter (fun v => v.id ≠ tid) } := by
      rw [hbody]
      simp only [ha, if_neg, ite_false]
    refine ⟨?_, fun h2 _ => absurd h2 ha, fun h2 _ => absurd h2 ha, fun _ => ?_, ?_⟩
    · rw [hclose]
    · rw [hclose]
    · intro hsaved
      simp only [closeTab, hfind, hsaved, Bool.not_false, Bool.true_and, Bool.and_self,
        if_pos]

/-- C3 witness: at `c3State`, force-closing the dirty active tab 2 removes
it and activates the last remaining tab, while the unforced, unconfirmed
close of the same dirty tab leaves the state untouched. -/
theorem c3_witness :
    (closeTab c3State 2 true false).tabs = c3State.tabs.filter (fun u => u.id ≠ 2)
    ∧ (closeTab c3State 2 true false).activeTabId
        = ((c3State.tabs.filter (fun u => u.id ≠ 2)).getLast?).map Tab.id
    ∧ closeTab c3State 2 false false = c3State := by
  have h := c3_closeTab_spec c3State 2 false
    ⟨2, "b.js", "b", "javascript", false, "", none⟩ (by decide)
  exact ⟨h.1, h.2.2.1 (by decide) (by decide), h.2.2.2.2 rfl⟩

-- ## Claim C4

theorem find?_map_flushTab (s : EditorState) (aid x : Nat) (X : Tab)
    (hX : s.tabs.find? (fun u => u.id = x) = some X) :
    (s.tabs.map (flushTab s.editorContent s.languageSelect aid)).find?
        (fun u => u.id = x)
      = some (flushTab s.editorContent s.languageSelect aid X) := by
  rw [List.find?_map]
  have hcomp : ((fun (u : Tab) => decide (u.id = x))
      ∘ flushTab s.editorContent s.languageSelect aid)
      = (fun (u : Tab) => decide (u.id = x)) := by
    funext u
    simp [Function.comp, flushTab_id]
  rw [hcomp, hX]
  rfl

/-- C4: flush-before-switch.  With Document A active and Document B
present, `switchToTab B.id` (one synchronous handler, modelled as a single
pure function) leaves A's `content` field equal to exactly the text the
editing surface held at the moment of the switch, and the editing surface
ends up holding B's stored content as it was before the switch — i.e. the
outgoing flush lands in A before the incoming load reads B, with no
interleaving possible. -/
theorem c4_flush_before_switch (s : EditorState) (aid bid : Nat) (A B : Tab)
    (hactive : s.activeTabId = some aid)
    (hA : s.tabs.find? (fun u => u.id = aid) = some A)
    (hB : s.tabs.find? (fun u => u.id = bid) = some B)
    (hne : aid ≠ bid) :
    (switchToTab s bid).tabs.find? (fun u => u.id = aid)
        = some { A with content := s.editorContent
                        language := s.languageSelect
                        saved := s.editorContent == A.originalContent }
    ∧ (switchToTab s bid).editorContent = B.content
    ∧ (switchToTab s bid).activeTabId = some bid := by
  have hAid : A.id = aid := by simpa using List.find?_some hA
  have hBid : B.id = bid := by simpa using List.find?_some hB
  have hfA : flushTab s.editorContent s.languageSelect aid A
      = { A with content := s.editorContent
                 language := s.languageSelect
                 saved := s.editorContent == A.originalContent } := by
    unfold flushTab
    rw [if_pos hAid]
  have hfB : flushTab s.editorContent s.languageSelect aid B = B :=
    flushTab_of_ne _ _ (by rw [hBid]; exact fun e => hne e.symm)
  have hswitch : switchToTab s bid =
      { tabs := s.tabs.map (flushTab s.editorContent s.languageSelect aid)
        activeTabId := some bid
        tabCounter := s.tabCounter
        editorContent := B.content
        filenameInput := B.filename
        languageSelect := B.language } := by
    unfold switchToTab
    simp only [flushActiveTab, hactive, find?_map_flushTab s aid bid B hB, hfB]
  refine ⟨?_, ?_, ?_⟩
  · rw [hswitch]
    show (s.tabs.map (flushTab s.editorContent s.languageSelect aid)).find?
        (fun u => u.id = aid) = _
    rw [find?_map_flushTab s aid aid A hA, hfA]
  · rw [hswitch]
  · rw [hswitch]

/-- C4 witness: switching from active tab 1 to tab 2 at `c4State` stores
the surface text "a2" into tab 1 and loads tab 2's stored "b" into the
surface. -/
theorem c4_witness :
    (switchToTab c4State 2).tabs.find? (fun u => u.id = 1)
        = some ⟨1, "a.js", "a2", "javascript", false, "a", none⟩
    ∧ (switchToTab c4State 2).editorContent = "b"
    ∧ (switchToTab c4State 2).activeTabId = some 2 := by
  have h := c4_flush_before_switch c4State 1 2
    ⟨1, "a.js", "a", "javascript", true, "a", none⟩
    ⟨2, "b.js", "b", "javascript", true, "b", none⟩
    rfl (by decide) (by decide) (by decide)
  exact ⟨by rw [h.1]; decide, h.2.1, h.2.2⟩

-- ## Claim C8

theorem saveTabs_cons_some (dirOpen : Bool) (nh : Nat) (t : Tab) (ts : List Tab) (h : Nat)
    (ht : t.fileHandle = some h) :
    saveTabs dirOpen nh (t :: ts) =
      { tabs := { t with originalContent := t.content, saved := true }
          :: (saveTabs dirOpen nh ts).tabs
        nextHandle := (saveTabs dirOpen nh ts).nextHandle
        writes := (h, t.content) :: (saveTabs dirOpen nh ts).writes
        created := (saveTabs dirOpen nh ts).created } := by
  simp only [saveTabs, ht]

theorem saveTabs_cons_none_pos (dirOpen : Bool) (nh : Nat) (t : Tab) (ts : List Tab)
    (ht : t.fileHandle = none) (hc : jsTrim t.content ≠ "" ∧ dirOpen = true) :
    saveTabs dirOpen nh (t :: ts) =
      { tabs := { t with fileHandle := some nh, originalContent := t.content, saved := true }
          :: (saveTabs dirOpen (nh + 1) ts).tabs
        nextHandle := (saveTabs dirOpen (nh + 1) ts).nextHandle
        writes := (saveTabs dirOpen (nh + 1) ts).writes
        created := (t.filename, t.content) :: (saveTabs dirOpen (nh + 1) ts).created } := by
  simp only [saveTabs, ht, if_pos hc]

theorem saveTabs_cons_none_neg (dirOpen : Bool) (nh : Nat) (t : Tab) (ts : List Tab)
    (ht : t.fileHandle = none) (hc : ¬ (jsTrim t.content ≠ "" ∧ dirOpen = true)) :
    saveTabs dirOpen nh (t :: ts) =
      { tabs := t :: (saveTabs dirOpen nh ts).tabs
        nextHandle := (saveTabs dirOpen nh ts).nextHandle
        writes := (saveTabs dirOpen nh ts).writes
        created := (saveTabs dirOpen nh ts).created } := by
  simp only [saveTabs, ht, if_neg hc]

theorem saveTabs_forall2 (dirOpen : Bool) :
    ∀ (nh : Nat) (ts : List Tab),
    List.Forall₂ (fun t t' =>
      (∀ h, t.fileHandle = some h →
          t' = { t with originalContent := t.content, saved := true })
      ∧ (t.fileHandle = none → jsTrim t.content ≠ "" → dirOpen = true →
          ∃ h, t' = { t with fileHandle := some h
                             originalContent := t.content
                             saved := true })
      ∧ (t.fileHandle = none → (jsTrim t.content = "" ∨ dirOpen = false) → t' = t))
      ts (saveTabs dirOpen nh ts).tabs := by
  intro nh ts
  induction ts generalizing nh with
  | nil => exact List.Forall₂.nil
  | cons t ts ih =>
    cases ht : t.fileHandle with
    | some h =>
      rw [saveTabs_cons_some dirOpen nh t ts h ht]
      refine List.Forall₂.cons ⟨fun h' _ => rfl, fun hn _ _ => ?_, fun hn _ => ?_⟩ (ih nh)
      · rw [ht] at hn; cases hn
      · rw [ht] at hn; cases hn
    | none =>
      by_cases hc : jsTrim t.content ≠ "" ∧ dirOpen = true
      · rw [saveTabs_cons_none_pos dirOpen nh t ts ht hc]
        refine List.Forall₂.cons ⟨fun h' hh' => ?_, fun _ _ _ => ⟨nh, rfl⟩, fun _ hcon => ?_⟩
          (ih (nh + 1))
        · rw [ht] at hh'; cases hh'
        · rcases hcon with h1 | h2
          · exact absurd h1 hc.1
          · rw [hc.2] at h2; cases h2
      · rw [saveTabs_cons_none_neg dirOpen nh t ts ht hc]
        refine List.Forall₂.cons
          ⟨fun h' hh' => ?_, fun _ htrim hdir => absurd ⟨htrim, hdir⟩ hc, fun _ _ => rfl⟩
          (ih nh)
        · rw [ht] at hh'; cases hh'

theorem saveTabs_writes_mem (dirOpen : Bool) :
    ∀ (nh : Nat) (ts : List Tab) (t : Tab) (h : Nat), t ∈ ts → t.fileHandle = some h →
      (h, t.content) ∈ (saveTabs dirOpen nh ts).writes := by
  intro nh ts
  induction ts generalizing nh with
  | nil => intro t h hmem; cases hmem
  | cons u ts ih =>
    intro t h hmem hth
    rcases List.mem_cons.mp hmem with rfl | hmem2
    · rw [saveTabs_cons_some dirOpen nh t ts h hth]
      exact List.mem_cons_self _ _
    · cases hu : u.fileHandle with
      | some h2 =>
        rw [saveTabs_cons_some dirOpen nh u ts h2 hu]
        exact List.mem_cons_of_mem _ (ih nh t h hmem2 hth)
      | none =>
        by_cases hc : jsTrim u.content ≠ "" ∧ dirOpen = true
        · rw [saveTabs_cons_none_pos dirOpen nh u ts hu hc]
          exact ih (nh + 1) t h hmem2 hth
        · rw [saveTabs_cons_none_neg dirOpen nh u ts hu hc]
          exact ih nh t h hmem2 hth

theorem saveTabs_created_mem (dirOpen : Bool) :
    ∀ (nh : Nat) (ts : List Tab) (t : Tab), t ∈ ts → t.fileHandle = none →
      jsTrim t.content ≠ "" → dirOpen = true →
      (t.filename, t.content) ∈ (saveTabs dirOpen nh ts).created := by
  intro nh ts
  induction ts generalizing nh with
  | nil => intro t hmem; cases hmem
  | cons u ts ih =>
    intro t hmem hth htrim hdir
    rcases List.mem_cons.mp hmem with rfl | hmem2
    · rw [saveTabs_cons_none_pos dirOpen nh t ts hth ⟨htrim, hdir⟩]
      exact List.mem_cons_self _ _
    · cases hu : u.fileHandle with
      | some h2 =>
        rw [saveTabs_cons_some dirOpen nh u ts h2 hu]
        exact ih nh t hmem2 hth htrim hdir
      | none =>
        by_cases hc : jsTrim u.content ≠ "" ∧ dirOpen = true
        · rw [saveTabs_cons_none_pos dirOpen nh u ts hu hc]
          exact List.mem_cons_of_mem _ (ih (nh + 1) t hmem2 hth htrim hdir)
        · rw [saveTabs_cons_none_neg dirOpen nh u ts hu hc]
          exact ih nh t hmem2 hth htrim hdir

/-- C8 counterexample: the explicit Save action does NOT create every
handle-less Document under the open directory.  At `c8State` — a
directory open, one handle-less tab with whitespace-only content " " —
`saveAllFiles` creates nothing (`tab.content.trim()` gates the creation),
binds no handle, and leaves the tab unsaved, refuting the claim that
every handle-less Document is created and ends clean. -/
theorem c8_counterexample :
    c8State.tabs.map Tab.fileHandle = [none]
    ∧ (saveAllFiles c8State true 10).created = []
    ∧ (saveAllFiles c8State true 10).state.tabs.map Tab.fileHandle = [none]
    ∧ (saveAllFiles c8State true 10).state.tabs.map Tab.saved = [false] := by
  refine ⟨by decide, by decide, by decide, by decide⟩

/-- C8 amended: the explicit Save action is immediate, un-debounced and
bulk — after the active tab's content/filename sync, the loop covers every
open Document, not just the active one: every Document with a bound handle
is written through the Storage Adapter (its handle and content appear in
the write set) and ends with `originalContent = content` and saved; every
handle-less Document whose content is non-blank (non-empty after trimming
whitespace) is, when a directory is open, created under it, bound to a
fresh handle, and ends saved; a handle-less Document with blank content —
or any handle-less Document when no directory is open — is left untouched.
-/
theorem c8_saveAll_bulk (s : EditorState) (dirOpen : Bool) (nh : Nat) :
    List.Forall₂ (fun t t' =>
      (∀ h, t.fileHandle = some h →
          t' = { t with originalContent := t.content, saved := true })
      ∧ (t.fileHandle = none → jsTrim t.content ≠ "" → dirOpen = true →
          ∃ h, t' = { t with fileHandle := some h
                             originalContent := t.content
                             saved := true })
      ∧ (t.fileHandle = none → (jsTrim t.content = "" ∨ dirOpen = false) → t' = t))
      (syncActiveTab s).tabs (saveAllFiles s dirOpen nh).state.tabs
    ∧ (∀ t ∈ (syncActiveTab s).tabs, ∀ h, t.fileHandle = some h →
        (h, t.content) ∈ (saveAllFiles s dirOpen nh).writes)
    ∧ (∀ t ∈ (syncActiveTab s).tabs, t.fileHandle = none → jsTrim t.content ≠ "" →
        dirOpen = true → (t.filename, t.content) ∈ (saveAllFiles s dirOpen nh).created) := by
  refine ⟨saveTabs_forall2 dirOpen nh (syncActiveTab s).tabs, ?_, ?_⟩
  · intro t hmem h hth
    exact saveTabs_writes_mem dirOpen nh (syncActiveTab s).tabs t h hmem hth
  · intro t hmem hth htrim hdir
    exact saveTabs_created_mem dirOpen nh (syncActiveTab s).tabs t hmem hth htrim hdir

/-- C8 amended witness: at `c8wState` with a directory open, the bound
tab's write and the handle-less non-blank tab's creation both appear in
the save-all outcome. -/
theorem c8_amended_witness :
    (7, "x") ∈ (saveAllFiles c8wState true 3).writes
    ∧ ("b.js", "y") ∈ (saveAllFiles c8wState true 3).created :=
  ⟨(c8_saveAll_bulk c8wState true 3).2.1
      ⟨1, "a.js", "x", "javascript", false, "", some 7⟩ (by decide) 7 rfl,
   (c8_saveAll_bulk c8wState true 3).2.2
      ⟨2, "b.js", "y", "javascript", false, "", none⟩ (by decide) rfl (by decide) rfl⟩

-- ## Claim C10

theorem renameStep_fileHandle_some {u : Tab} {nf : String} {h : Nat}
    (hr : (renameStep u nf).fileHandle = some h) : u.fileHandle = some h := by
  unfold renameStep at hr
  split at hr
  · simp at hr
  · exact hr

theorem switchToTab_tabs (s : EditorState) (x : Nat) :
    (switchToTab s x).tabs = (flushActiveTab s).tabs := by
  unfold switchToTab
  cases h : (flushActiveTab s).tabs.find? (fun t => t.id = x) <;> simp [h]

theorem closeTab_force_handles (s : EditorState) (tid : Nat) (cfm : Bool) :
    ∀ u ∈ (closeTab s tid true cfm).tabs,
      ∃ v, v ∈ s.tabs ∧ v.id ≠ tid ∧ u.fileHandle = v.fileHandle := by
  intro u hu
  cases hfind : s.tabs.find? (fun w => w.id = tid) with
  | none =>
    simp only [closeTab, hfind] at hu
    have hall := List.find?_eq_none.mp hfind
    exact ⟨u, hu, by simpa using hall u hu, rfl⟩
  | some t =>
    simp only [closeTab, hfind, Bool.not_true, Bool.and_false, Bool.false_and,
      Bool.false_eq_true, if_false] at hu
    have hmem_remaining :
        ∀ w ∈ s.tabs.filter (fun v => v.id ≠ tid),
          ∃ v, v ∈ s.tabs ∧ v.id ≠ tid ∧ w.fileHandle = v.fileHandle := by
      intro w hw
      have := List.mem_filter.mp hw
      exact ⟨w, this.1, by simpa using this.2, rfl⟩
    by_cases ha : s.activeTabId = some tid
    · rw [if_pos ha] at hu
      cases hlast : (s.tabs.filter (fun v => v.id ≠ tid)).getLast? with
      | none =>
        rw [hlast] at hu
        exact hmem_remaining u hu
      | some last =>
        rw [hlast] at hu
        rw [switchToTab_tabs] at hu
        simp only [flushActiveTab, ha] at hu
        obtain ⟨v, hv, hvu⟩ := List.mem_map.mp hu
        obtain ⟨v2, hv2, hvid2, hfh⟩ := hmem_remaining v hv
        refine ⟨v2, hv2, hvid2, ?_⟩
        rw [← hvu, flushTab_fileHandle]
        exact hfh
    · rw [if_neg ha] at hu
      exact hmem_remaining u hu

theorem autoSave_writes_sub (s : EditorState) (sup dirOpen : Bool) :
    ∀ w ∈ (autoSaveToFileSystem s sup dirOpen).writes,
      ∃ t ∈ s.tabs, t.fileHandle = some w.1 := by
  intro w hw
  cases ha : s.activeTabId with
  | none => simp [autoSaveToFileSystem, ha] at hw
  | some aid =>
    cases hf : s.tabs.find? (fun u => u.id = aid) with
    | none => simp [autoSaveToFileSystem, ha, hf] at hw
    | some t =>
      simp only [autoSaveToFileSystem, ha, hf] at hw
      cases hsup : sup with
      | false => rw [hsup] at hw; simp at hw
      | true =>
        rw [hsup] at hw
        cases h2 : (renameStep { t with content := s.editorContent }
            (resolveFilename s.filenameInput t)).fileHandle with
        | none => rw [h2] at hw; simp at hw
        | some h =>
          rw [h2] at hw
          simp at hw
          have hth : ({ t with content := s.editorContent } : Tab).fileHandle = some h :=
            renameStep_fileHandle_some h2
          refine ⟨t, List.mem_of_find?_eq_some hf, ?_⟩
          rw [hw]
          exact hth

theorem saveTabs_writes_sub (dirOpen : Bool) :
    ∀ (nh : Nat) (ts : List Tab) (w : Nat × String), w ∈ (saveTabs dirOpen nh ts).writes →
      ∃ t ∈ ts, t.fileHandle = some w.1 := by
  intro nh ts
  induction ts generalizing nh with
  | nil => intro w hw; simp [saveTabs] at hw
  | cons u ts ih =>
    intro w hw
    cases hu : u.fileHandle with
    | some h2 =>
      rw [saveTabs_cons_some dirOpen nh u ts h2 hu] at hw
      rcases List.mem_cons.mp hw with rfl | hw2
      · exact ⟨u, List.mem_cons_self u ts, hu⟩
      · obtain ⟨t, ht, hth⟩ := ih nh w hw2
        exact ⟨t, List.mem_cons_of_mem u ht, hth⟩
    | none =>
      by_cases hc : jsTrim u.content ≠ "" ∧ dirOpen = true
      · rw [saveTabs_cons_none_pos dirOpen nh u ts hu hc] at hw
        obtain ⟨t, ht, hth⟩ := ih (nh + 1) w hw
        exact ⟨t, List.mem_cons_of_mem u ht, hth⟩
      · rw [saveTabs_cons_none_neg dirOpen nh u ts hu hc] at hw
        obtain ⟨t, ht, hth⟩ := ih nh w hw
        exact ⟨t, List.mem_cons_of_mem u ht, hth⟩

theorem syncActiveTab_writes_handle (s : EditorState) {u : Tab} {h : Nat}
    (hu : u ∈ (syncActiveTab s).tabs) (hh : u.fileHandle = some h) :
    ∃ v ∈ s.tabs, v.fileHandle = some h := by
  cases ha : s.activeTabId with
  | none =>
    simp only [syncActiveTab, ha] at hu
    exact ⟨u, hu, hh⟩
  | some aid =>
    simp only [syncActiveTab, ha] at hu
    obtain ⟨v, hv, hvu⟩ := List.mem_map.mp hu
    by_cases hvid : v.id = aid
    · rw [if_pos hvid] at hvu
      have : ({ v with content := s.editorContent } : Tab).fileHandle = some h :=
        renameStep_fileHandle_some (by rw [hvu]; exact hh)
      exact ⟨v, hv, this⟩
    · rw [if_neg hvid] at hvu
      exact ⟨v, hv, hvu ▸ hh⟩

/-- C10 counterexample: deleting entry "a.txt" (handle 5) from
`c10State` succeeds, force-closing only the FIRST tab bound to the handle
(tab 1) before the delete — yet tab 2 stays open and still bound, so the
still-pending debounced autosave cycle that fires next writes "edit2"
through the deleted handle 5.  This refutes "no subsequent write through
that handle is ever attempted". -/
theorem c10_counterexample :
    (deleteItem c10State [("a.txt", "old")] ⟨true, true, false⟩ true true "a.txt" 5).ok = true
    ∧ (deleteItem c10State [("a.txt", "old")] ⟨true, true, false⟩ true true "a.txt" 5).events
        = [UiEvent.tabClosed 1, UiEvent.entryDeleted "a.txt"]
    ∧ (autoSaveToFileSystem
        (deleteItem c10State [("a.txt", "old")] ⟨true, true, false⟩ true true "a.txt" 5).state
        true true).writes = [(5, "edit2")] := by
  refine ⟨by decide, by decide, by decide⟩

/-- C10 amended: when AT MOST ONE open tab is bound to the handle, the
claim holds — the delete action (confirmed, directory open, entry
present, permission granted, removal unblocked) force-closes the bound
tab without any unsaved-changes confirmation BEFORE the storage delete
(the event trace lists the tab close strictly before the entry deletion),
succeeds, leaves no tab bound to the handle, and no subsequent debounced
autosave cycle or explicit save-all performs a write through that handle.
With several tabs sharing one handle only the first is closed and a later
write through the handle remains possible (see the counterexample). -/
theorem c10_delete_unique_handle (s : EditorState) (d : Dir) (cap : Capability)
    (itemName : String) (h : Nat) (c : String)
    (hperm : cap.permGranted = true) (hblock : cap.deleteBlocked = false)
    (hentry : d.lookup itemName = some c)
    (huniq : ∀ t₁ ∈ s.tabs, ∀ t₂ ∈ s.tabs,
      t₁.fileHandle = some h → t₂.fileHandle = some h → t₁ = t₂) :
    (deleteItem s d cap true true itemName h).ok = true
    ∧ (∀ openTab, s.tabs.find? (fun t => t.fileHandle = some h) = some openTab →
        (deleteItem s d cap true true itemName h).events
          = [UiEvent.tabClosed openTab.id, UiEvent.entryDeleted itemName])
    ∧ (s.tabs.find? (fun t => t.fileHandle = some h) = none →
        (deleteItem s d cap true true itemName h).events = [UiEvent.entryDeleted itemName])
    ∧ (∀ u ∈ (deleteItem s d cap true true itemName h).state.tabs, u.fileHandle ≠ some h)
    ∧ (∀ sup dOpen : Bool, ∀ w ∈ (autoSaveToFileSystem
          (deleteItem s d cap true true itemName h).state sup dOpen).writes, w.1 ≠ h)
    ∧ (∀ dOpen : Bool, ∀ nh : Nat, ∀ w ∈ (saveAllFiles
          (deleteItem s d cap true true itemName h).state dOpen nh).writes, w.1 ≠ h) := by
  have hdel : fsDeleteEntry cap d itemName
      = { dir := d.removeEntry itemName, ok := true, errorMsg := "", requests := 0 } := by
    simp [fsDeleteEntry, hperm, hentry, hblock]
  have hmain :
      (deleteItem s d cap true true itemName h).ok = true
      ∧ (∀ openTab, s.tabs.find? (fun t => t.fileHandle = some h) = some openTab →
          (deleteItem s d cap true true itemName h).events
            = [UiEvent.tabClosed openTab.id, UiEvent.entryDeleted itemName])
      ∧ (s.tabs.find? (fun t => t.fileHandle = some h) = none →
          (deleteItem s d cap true true itemName h).events = [UiEvent.entryDeleted itemName])
      ∧ (∀ u ∈ (deleteItem s d cap true true itemName h).state.tabs,
          u.fileHandle ≠ some h) := by
    cases hfind : s.tabs.find? (fun t => t.fileHandle = some h) with
    | none =>
      have hrun : deleteItem s d cap true true itemName h
          = { state := s, dir := d.removeEntry itemName
              events := [UiEvent.entryDeleted itemName], ok := true } := by
        simp [deleteItem, hfind, hdel]
      have hall := List.find?_eq_none.mp hfind
      refine ⟨?_, ?_, ?_, ?_⟩
      · rw [hrun]
      · intro ot hot
        exact Option.noConfusion hot
      · intro _
        rw [hrun]
      · intro u hu
        rw [hrun] at hu
        simpa using hall u hu
    | some openTab =>
      have hrun : deleteItem s d cap true true itemName h
          = { state := closeTab s openTab.id true false, dir := d.removeEntry itemName
              events := [UiEvent.tabClosed openTab.id, UiEvent.entryDeleted itemName]
              ok := true } := by
        simp [deleteItem, hfind, hdel]
      have hopenmem : openTab ∈ s.tabs := List.mem_of_find?_eq_some hfind
      have hopenh : openTab.fileHandle = some h := by
        simpa using List.find?_some hfind
      refine ⟨?_, ?_, ?_, ?_⟩
      · rw [hrun]
      · intro ot hot
        injection hot with hot2
        rw [← hot2, hrun]
      · intro hnone
        exact Option.noConfusion hnone
      · intro u hu
        rw [hrun] at hu
        obtain ⟨v, hv, hvid, hfh⟩ := closeTab_force_handles s openTab.id false u hu
        intro huh
        rw [huh] at hfh
        exact hvid (congrArg Tab.id (huniq v hv openTab hopenmem hfh.symm hopenh))
  refine ⟨hmain.1, hmain.2.1, hmain.2.2.1, hmain.2.2.2, ?_, ?_⟩
  · intro sup dOpen w hw
    obtain ⟨t, ht, hth⟩ :=
      autoSave_writes_sub (deleteItem s d cap true true itemName h).state sup dOpen w hw
    intro heq
    rw [heq] at hth
    exact hmain.2.2.2 t ht hth
  · intro dOpen nh w hw
    have hw2 : w ∈ (saveTabs dOpen nh
        (syncActiveTab (deleteItem s d cap true true itemName h).state).tabs).writes := hw
    obtain ⟨t, ht, hth⟩ := saveTabs_writes_sub dOpen nh _ w hw2
    intro heq
    rw [heq] at hth
    obtain ⟨v, hv, hvh⟩ := syncActiveTab_writes_handle _ ht hth
    exact hmain.2.2.2 v hv hvh

/-- C10 amended witness: at `c10wState` the delete succeeds, the bound
tab closes before the entry deletion, and no tab remains bound to
handle 5. -/
theorem c10_amended_witness :
    (deleteItem c10wState [("a.txt", "x")] ⟨true, true, false⟩ true true "a.txt" 5).ok = true
    ∧ (deleteItem c10wState [("a.txt", "x")] ⟨true, true, false⟩ true true "a.txt" 5).events
        = [UiEvent.tabClosed 1, UiEvent.entryDeleted "a.txt"]
    ∧ ∀ u ∈ (deleteItem c10wState [("a.txt", "x")] ⟨true, true, false⟩
        true true "a.txt" 5).state.tabs, u.fileHandle ≠ some 5 := by
  have hmain := c10_delete_unique_handle c10wState [("a.txt", "x")] ⟨true, true, false⟩
    "a.txt" 5 "x" rfl rfl (by decide) (by decide)
  exact ⟨hmain.1,
    hmain.2.1 ⟨1, "a.txt", "x", "javascript", true, "x", some 5⟩ (by decide),
    hmain.2.2.2.1⟩
